import Mathlib

/-!
Shallow embedding of the Eurorack drum machine firmware
(src/firmware/src/main.cpp), covering the streaming playback engine
(StreamingSample, triggerSample, getNextSample, refillStreamBuffer,
loadSampleToFlash), the mixer in loop(), and the WAV ingestion routine
copyWAVToFlash.  Machine integers are modelled as Nat/Int with explicit
wrap-around where the C code can overflow; files are modelled as byte
lists together with a read position; fallible environment actions
(opening a file, a short read) are modelled as explicit parameters.
-/

namespace DrumMachine

/-- Interpret a natural number as a C int16_t bit pattern
(two's complement reinterpretation of the low 16 bits). -/
def toInt16 (n : Nat) : Int :=
  if n % 65536 < 32768 then ((n % 65536 : Nat) : Int)
  else ((n % 65536 : Nat) : Int) - 65536

/-- Interpret a natural number as a C int32_t bit pattern
(two's complement reinterpretation of the low 32 bits). -/
def toInt32 (n : Nat) : Int :=
  if n % 4294967296 < 2147483648 then ((n % 4294967296 : Nat) : Int)
  else ((n % 4294967296 : Nat) : Int) - 4294967296

/-- Bit pattern of an int16_t value as an unsigned 16-bit number. -/
def toUInt16bits (x : Int) : Nat := (x % 65536).toNat

/-- One voice of the firmware: the StreamingSample struct of main.cpp.
The C `File flashFile` handle is modelled by its truthiness (`fileOpen`),
the bytes of the flash file it refers to (`fileBytes`) and the current
read position in that file (`filePos`); the String fields (filename,
flashPath) play no role in the claims and are omitted. -/
structure StreamingSample where
  buffer : List Int
  bufferSize : Nat
  bufferHead : Nat
  bufferTail : Nat
  samplesInBuffer : Nat
  fileOpen : Bool
  fileBytes : List Nat
  filePos : Nat
  totalSamples : Nat
  samplesPlayed : Nat
  playing : Bool
  loaded : Bool
  endOfFile : Bool
  deriving Repr, DecidableEq

/-- State of one voice after initializeStreamBuffers in main.cpp:
bufferSize = STREAM_BUFFER_SIZE / 2 = 1024 samples, all indices and
counters zero, all flags false.  (malloc leaves the C buffer contents
indeterminate; they are modelled as zeros, and no claim depends on them.) -/
def initStream : StreamingSample :=
  { buffer := List.replicate 1024 0
    bufferSize := 1024
    bufferHead := 0
    bufferTail := 0
    samplesInBuffer := 0
    fileOpen := false
    fileBytes := []
    filePos := 0
    totalSamples := 0
    samplesPlayed := 0
    playing := false
    loaded := false
    endOfFile := false }

/-- getNextSample of main.cpp (lines 438-460): returns the emitted sample
and the updated voice state.  Pops one sample from the ring buffer when
playing and non-empty; closes the file and stops when samplesPlayed
reaches totalSamples. -/
def getNextSample (s : StreamingSample) : Int × StreamingSample :=
  if !s.playing || s.samplesInBuffer == 0 then
    (0, s)
  else
    let sample := s.buffer.getD s.bufferHead 0
    let s1 := { s with
      bufferHead := (s.bufferHead + 1) % s.bufferSize
      samplesInBuffer := s.samplesInBuffer - 1
      samplesPlayed := s.samplesPlayed + 1 }
    if s1.samplesPlayed ≥ s1.totalSamples then
      (sample, { s1 with playing := false, fileOpen := false })
    else
      (sample, s1)

/-- Body of the while loop of refillStreamBuffer (lines 469-484), with
explicit fuel.  Each iteration reads 2 bytes from the flash file: a full
read appends the decoded little-endian int16 sample at bufferTail, a
short read (fewer than 2 bytes remaining) sets endOfFile.  The C loop
runs until the guard fails; the supplied fuel is always sufficient for
that (each step either increments samplesInBuffer, bounded by
bufferSize, or sets endOfFile). -/
def refillLoop : Nat → StreamingSample → StreamingSample
  | 0, s => s
  | fuel + 1, s =>
    if s.samplesInBuffer < s.bufferSize && !s.endOfFile then
      if s.filePos + 2 ≤ s.fileBytes.length then
        let sample := toInt16 (s.fileBytes.getD s.filePos 0 |||
          (s.fileBytes.getD (s.filePos + 1) 0 <<< 8))
        refillLoop fuel { s with
          buffer := s.buffer.set s.bufferTail sample
          bufferTail := (s.bufferTail + 1) % s.bufferSize
          samplesInBuffer := s.samplesInBuffer + 1
          filePos := s.filePos + 2 }
      else
        refillLoop fuel { s with
          endOfFile := true
          filePos := min (s.filePos + 2) s.fileBytes.length }
    else
      s

/-- refillStreamBuffer of main.cpp (lines 463-485). -/
def refillStreamBuffer (s : StreamingSample) : StreamingSample :=
  if !s.fileOpen || s.endOfFile then s
  else refillLoop (s.bufferSize + 2) s

/-- triggerSample of main.cpp (lines 400-435), for one voice.  The
environment supplies whether LittleFS.open succeeds (`openOk`) and the
bytes of the flash file (`flashBytes`, including its 44-byte header).
Note the source resets samplesPlayed, bufferHead, samplesInBuffer and
endOfFile but NOT bufferTail. -/
def triggerSample (openOk : Bool) (flashBytes : List Nat)
    (s : StreamingSample) : StreamingSample :=
  if s.loaded then
    let s1 := { s with
      samplesPlayed := 0
      bufferHead := 0
      samplesInBuffer := 0
      endOfFile := false
      playing := true }
    let s2 := { s1 with fileOpen := false }
    if openOk then
      refillStreamBuffer { s2 with
        fileOpen := true
        fileBytes := flashBytes
        filePos := 44 }
    else
      s2
  else
    s

/-- loadSampleToFlash of main.cpp (lines 562-608), for one voice.  The
environment supplies whether copyWAVToFlash succeeds (`copyOk`), whether
the subsequent informational open of the flash file succeeds (`infoOk`)
and the data-size field read from the flash file header (`dataSize`).
The source closes any open handle first; on successful copy it marks the
voice loaded and sets totalSamples := dataSize / 2.  It does not touch
playing, the cursor or the ring buffer. -/
def loadSampleToFlash (copyOk infoOk : Bool) (dataSize : Nat)
    (s : StreamingSample) : StreamingSample :=
  let s1 := { s with fileOpen := false }
  if copyOk then
    let s2 := { s1 with loaded := true }
    if infoOk then { s2 with totalSamples := dataSize / 2 } else s2
  else
    s1

/-- The operations the control loop can perform on one voice. -/
inductive Op where
  | load (copyOk infoOk : Bool) (dataSize : Nat)
  | trigger (openOk : Bool) (flashBytes : List Nat)
  | tick
  | refill
  deriving Repr

/-- Apply one operation to a voice state. -/
def applyOp (s : StreamingSample) : Op → StreamingSample
  | Op.load copyOk infoOk dataSize => loadSampleToFlash copyOk infoOk dataSize s
  | Op.trigger openOk flashBytes => triggerSample openOk flashBytes s
  | Op.tick => (getNextSample s).2
  | Op.refill => refillStreamBuffer s

/-- Run a sequence of operations from the initialized voice state. -/
def runOps (ops : List Op) : StreamingSample :=
  ops.foldl applyOp initStream

/-- The ring buffer invariant of the spec: 0 <= count <= capacity and
head, tail in [0, capacity).  (Counts are Nat, so 0 <= count is
implicit; positivity of the capacity is carried along.) -/
def RingInv (s : StreamingSample) : Prop :=
  0 < s.bufferSize ∧ s.samplesInBuffer ≤ s.bufferSize ∧
    s.bufferHead < s.bufferSize ∧ s.bufferTail < s.bufferSize

/-- The clamp of the mixer in loop() (line 313):
mixedSample = max(-32767, min(32767, mixedSample)). -/
def clamp16 (x : Int) : Int := max (-32767) (min 32767 x)

/-- The mixing pass of loop() (lines 302-310): every voice that is
playing and loaded contributes one sample via getNextSample; the
contributions are summed in a 32-bit accumulator.  The accumulator is
modelled as Int, which is exact because the sum of at most four int16
values cannot overflow int32. -/
def mixVoices : List StreamingSample → Int × List StreamingSample
  | [] => (0, [])
  | v :: rest =>
    let tailRes := mixVoices rest
    if v.playing && v.loaded then
      let r := getNextSample v
      (r.1 + tailRes.1, r.2 :: tailRes.2)
    else
      (tailRes.1, v :: tailRes.2)

/-- The sample one voice contributes to the mixer accumulator. -/
def mixContribution (v : StreamingSample) : Int :=
  if v.playing && v.loaded then (getNextSample v).1 else 0

/-- One audio frame of loop() (lines 301-317): mix, clamp, and emit the
same clamped value on both channels of i2s.write16.  The cast to
int16_t before writing is the identity because the clamp bounds the
value to [-32767, 32767]. -/
def loopTick (vs : List StreamingSample) :
    (Int × Int) × List StreamingSample :=
  let m := mixVoices vs
  let c := clamp16 m.1
  ((c, c), m.2)

/-! ### copyWAVToFlash (lines 611-725) -/

/-- MAX_FLASH_SAMPLE_SIZE of main.cpp: 512 KB. -/
def MAX_FLASH_SAMPLE_SIZE : Nat := 524288

/-- Little-endian 16-bit field read from a byte list, as done by the C
casts on the WAV header (e.g. `*(uint16_t*)(header + 22)` on a
little-endian target). -/
def readU16 (bytes : List Nat) (off : Nat) : Nat :=
  bytes.getD off 0 ||| (bytes.getD (off + 1) 0 <<< 8)

/-- Little-endian 32-bit field read from a byte list, as done by
`*(uint32_t*)(header + 40)` on a little-endian target. -/
def readU32 (bytes : List Nat) (off : Nat) : Nat :=
  bytes.getD off 0 ||| (bytes.getD (off + 1) 0 <<< 8) |||
    (bytes.getD (off + 2) 0 <<< 16) ||| (bytes.getD (off + 3) 0 <<< 24)

/-- Store a 32-bit value into four consecutive bytes (little-endian),
as done by `*(uint32_t*)(header + off) = n`. -/
def setU32 (bytes : List Nat) (off : Nat) (n : Nat) : List Nat :=
  (((bytes.set off (n % 256)).set (off + 1) (n / 256 % 256)).set
    (off + 2) (n / 65536 % 256)).set (off + 3) (n / 16777216 % 256)

/-- The header rewrite of copyWAVToFlash (lines 651-658): force
1 channel at offset 22, 16 bits per sample at offset 34, store the
recomputed data size at offset 40 and the file size (data size + 36)
at offset 4. -/
def patchHeader (src : List Nat) (newDataSize : Nat) : List Nat :=
  setU32 (setU32 (((((src.take 44).set 22 1).set 23 0).set 34 16).set 35 0)
    40 newDataSize) 4 (newDataSize + 36)

/-- The sign-extension of a 24-bit sample in copyWAVToFlash
(lines 690-692): the assembled value lives in an int32_t; if bit 23 is
set, the C code ORs in 0xFF000000, producing a negative int32 bit
pattern. -/
def signExtend24 (n : Nat) : Int :=
  if n &&& 8388608 != 0 then toInt32 (n ||| 4278190080) else (n : Int)

/-- 24-bit to 16-bit conversion of copyWAVToFlash (lines 690-693):
sign-extend, then `>> 8` — an arithmetic shift on the int32 value. -/
def convert24To16 (n : Nat) : Int := signExtend24 n >>> 8

/-- Modelled from the spec: "24-bit → 16-bit: sign-extend the 24-bit
two's-complement value to a wider signed integer, then arithmetic-shift
right by 8 bits (truncating, not rounding)".  Used only to compare the
source conversion against the spec's stated rule. -/
def sext24Spec (n : Nat) : Int :=
  if n < 8388608 then (n : Int) else (n : Int) - 16777216

/-- Modelled from the spec: the full 24-bit → 16-bit rule as worded in
the spec (sign extension followed by an arithmetic right shift by 8). -/
def convert24To16Spec (n : Nat) : Int := sext24Spec n >>> 8

/-- The per-sample read-and-convert step of the copy loop of
copyWAVToFlash (lines 666-709).  Returns the produced int16 sample and
the new read position in the source.  A full read consumes the frame's
bytes; a short read leaves outputSample at 0 and consumes whatever was
left (SD.read consumes min(requested, remaining)); a bit depth other
than 16 or 24 reads nothing and leaves outputSample at 0.  All channel
counts other than 1 take the stereo branch, exactly as the C
`if (numChannels == 1) ... else ...` does.  Stereo averaging uses C
int32 division, which truncates toward zero (Int.tdiv). -/
def readSampleAt (bitsPerSample numChannels : Nat) (src : List Nat)
    (pos : Nat) : Int × Nat :=
  if bitsPerSample == 16 then
    if numChannels == 1 then
      if pos + 2 ≤ src.length then
        (toInt16 (src.getD pos 0 ||| (src.getD (pos + 1) 0 <<< 8)), pos + 2)
      else (0, min (pos + 2) src.length)
    else
      if pos + 4 ≤ src.length then
        let left := toInt16 (src.getD pos 0 ||| (src.getD (pos + 1) 0 <<< 8))
        let right := toInt16 (src.getD (pos + 2) 0 |||
          (src.getD (pos + 3) 0 <<< 8))
        (Int.tdiv (left + right) 2, pos + 4)
      else (0, min (pos + 4) src.length)
  else if bitsPerSample == 24 then
    if numChannels == 1 then
      if pos + 3 ≤ src.length then
        (convert24To16 (src.getD pos 0 ||| (src.getD (pos + 1) 0 <<< 8) |||
          (src.getD (pos + 2) 0 <<< 16)), pos + 3)
      else (0, min (pos + 3) src.length)
    else
      if pos + 6 ≤ src.length then
        let left24 := signExtend24 (src.getD pos 0 |||
          (src.getD (pos + 1) 0 <<< 8) ||| (src.getD (pos + 2) 0 <<< 16))
        let right24 := signExtend24 (src.getD (pos + 3) 0 |||
          (src.getD (pos + 4) 0 <<< 8) ||| (src.getD (pos + 5) 0 <<< 16))
        (Int.tdiv (left24 + right24) 2 >>> 8, pos + 6)
      else (0, min (pos + 6) src.length)
  else
    (0, pos)

/-- Little-endian bytes of the int16 output sample, as written by
lines 712-714: `{outputSample & 0xFF, (uint8_t)(outputSample >> 8)}` —
for an int16 value these are exactly the two bytes of its unsigned
16-bit pattern. -/
def sampleToBytes (x : Int) : List Nat :=
  [toUInt16bits x % 256, toUInt16bits x / 256]

/-- The copy-and-convert loop of copyWAVToFlash (lines 666-717), with
the remaining sample count as fuel, which is exact: the C loop runs
while samplesProcessed < totalSamples and the source has bytes left
(sdFile.available()), and samplesProcessed increments each iteration. -/
def convertLoop (bitsPerSample numChannels : Nat) (src : List Nat) :
    Nat → Nat → List Nat → List Nat
  | 0, _, out => out
  | fuel + 1, pos, out =>
    if pos < src.length then
      let r := readSampleAt bitsPerSample numChannels src pos
      convertLoop bitsPerSample numChannels src fuel r.2
        (out ++ sampleToBytes r.1)
    else
      out

/-- copyWAVToFlash of main.cpp (lines 611-725).  The environment
supplies whether SD.open succeeds (`sdOpenOk`) and whether
LittleFS.open of the destination succeeds (`flashOpenOk`); `src` is the
source file's bytes.  Returns the C result (bool) together with the
bytes written to the destination.  The header fields are read exactly
where the code reads them (22, 24, 34, 40); no signature field is ever
inspected.  A data size above MAX_FLASH_SAMPLE_SIZE is clamped.  If the
declared bits-per-sample is below 8, the C code divides by
bitsPerSample/8 = 0 (undefined behaviour); the model then uses Lean's
x / 0 = 0 and no claim is settled in that region. -/
def copyWAVToFlash (sdOpenOk flashOpenOk : Bool) (src : List Nat) :
    Bool × List Nat :=
  if !sdOpenOk then (false, [])
  else if src.length < 44 then (false, [])
  else
    let bitsPerSample := readU16 src 34
    let numChannels := readU16 src 22
    let dataSizeRaw := readU32 src 40
    let dataSize := if dataSizeRaw > MAX_FLASH_SAMPLE_SIZE then
      MAX_FLASH_SAMPLE_SIZE else dataSizeRaw
    if !flashOpenOk then (false, [])
    else
      let newDataSize := dataSize / (bitsPerSample / 8) / numChannels * 2
      let totalSamples := dataSize / (bitsPerSample / 8) / numChannels
      (true, patchHeader src newDataSize ++
        convertLoop bitsPerSample numChannels src totalSamples 44 [])

/-- Bytes one source frame occupies in the copy loop, for the supported
formats (used only to state theorems about convertLoop). -/
def frameBytes (bitsPerSample numChannels : Nat) : Nat :=
  (bitsPerSample / 8) * numChannels

/-! ### Concrete inputs used by individual theorems -/

/-- A canonical flash file with two 16-bit samples 1 and 2 after the
44-byte header (header bytes are irrelevant to playback). -/
def fileA : List Nat := List.replicate 44 0 ++ [1, 0, 2, 0]

/-- A canonical flash file with three 16-bit samples 10, 11, 12. -/
def fileB : List Nat := List.replicate 44 0 ++ [10, 0, 11, 0, 12, 0]

/-- Load asset A (4 data bytes), play it to completion, then load
asset B (6 data bytes) and trigger it.  All environment actions
succeed. -/
def c1State : StreamingSample :=
  runOps [Op.load true true 4, Op.trigger true fileA, Op.tick, Op.tick,
    Op.load true true 6, Op.trigger true fileB]

/-- A canonical flash file consisting of a 44-byte header and no data. -/
def emptyFlashFile : List Nat := List.replicate 44 0

/-- Load an asset whose header declares 0 data bytes, then trigger it
successfully: the voice is Playing with totalSamples = 0. -/
def emptyAssetState : StreamingSample :=
  runOps [Op.load true true 0, Op.trigger true emptyFlashFile]

/-- Load an asset successfully, then trigger while LittleFS.open
fails. -/
def failedOpenState : StreamingSample :=
  runOps [Op.load true true 4, Op.trigger false []]

/-- A playing, loaded voice whose next buffered sample is +20000. -/
def loudVoice : StreamingSample :=
  { initStream with
    playing := true
    loaded := true
    samplesInBuffer := 1
    buffer := (List.replicate 1024 0).set 0 20000
    totalSamples := 1000 }

/-- Three loud voices plus one idle voice, as in the 4-voice mixer. -/
def loudVoices : List StreamingSample :=
  [loudVoice, loudVoice, loudVoice, initStream]

/-- A playing, loaded voice whose ring buffer has drained to 0. -/
def underrunVoice : StreamingSample :=
  { initStream with playing := true, loaded := true }

/-- A playing voice mid-sample: one buffered sample, cursor 0 of 3. -/
def playVoice : StreamingSample :=
  { initStream with
    playing := true
    loaded := true
    samplesInBuffer := 1
    buffer := (List.replicate 1024 0).set 0 5
    totalSamples := 3 }

/-- A source file declaring 32 bits per sample (unsupported), 1 channel,
4 data bytes, with the 4 data bytes present. -/
def src32 : List Nat :=
  ((((List.replicate 44 0).set 34 32).set 22 1).set 40 4) ++ [0, 0, 0, 0]

/-- A source file whose signature fields (bytes 0-3 and 8-11) are all
zero — not a RIFF/WAVE header — but with 16 bits per sample, 1 channel
and 2 data bytes declared and present. -/
def badSigSrc : List Nat :=
  ((((List.replicate 44 0).set 34 16).set 22 1).set 40 2) ++ [7, 0]

/-- A source whose header declares the given bit depth and channel
count (arbitrary 16-bit values), 4 data bytes, with 4 data bytes
present. -/
def mkFormatSrc (bitsPerSample numChannels : Nat) : List Nat :=
  ((((((List.replicate 44 0).set 34 (bitsPerSample % 256)).set 35
    (bitsPerSample / 256 % 256)).set 22 (numChannels % 256)).set 23
    (numChannels / 256 % 256)).set 40 4) ++ [0, 0, 0, 0]

/-- An oversized 16-bit stereo source: declared data size 0x100000
bytes (1 MB, above the 512 KB cap), with 524288 data bytes present —
enough for the 131072 frames the capped conversion consumes. -/
def stereoBigSrc : List Nat :=
  ((((List.replicate 44 0).set 34 16).set 22 2).set 42 16) ++
    List.replicate 524288 0

/-- An oversized 24-bit mono source: declared data size 0x100000 bytes,
with 524286 data bytes present — enough for the 174762 frames the
capped conversion consumes. -/
def monoBigSrc : List Nat :=
  ((((List.replicate 44 0).set 34 24).set 22 1).set 42 16) ++
    List.replicate 524286 0

/-! ### General helper lemmas -/

/-- OR of a left-shifted value with a value below the shift amount is
addition (the bit ranges are disjoint). -/
theorem shiftLeft_lor_eq_add (a b k : Nat) (hb : b < 2 ^ k) :
    (a <<< k) ||| b = a * 2 ^ k + b := by
  apply Nat.eq_of_testBit_eq
  intro j
  rw [Nat.testBit_lor, Nat.testBit_shiftLeft]
  rcases Nat.lt_or_ge j k with hj | hj
  · have h1 : decide (j ≥ k) = false := by
      simp only [decide_eq_false_iff_not]
      omega
    rw [h1, Bool.false_and, Bool.false_or,
      Nat.testBit_to_div_mod, Nat.testBit_to_div_mod]
    have hdiv : (a * 2 ^ k + b) / 2 ^ j = b / 2 ^ j + a * 2 ^ (k - j) := by
      have hpow : (2 : Nat) ^ k = 2 ^ (k - j) * 2 ^ j := by
        rw [← pow_add]
        congr 1
        omega
      rw [hpow, ← Nat.mul_assoc, Nat.add_comm]
      exact Nat.add_mul_div_right b (a * 2 ^ (k - j))
        (Nat.pos_pow_of_pos j (by decide))
    rw [hdiv]
    have heven : a * 2 ^ (k - j) = a * 2 ^ (k - j - 1) * 2 := by
      rw [Nat.mul_assoc, ← Nat.pow_succ]
      congr 2
      omega
    rw [heven, Nat.add_mul_mod_self_right]
  · have h1 : decide (j ≥ k) = true := by
      simp only [decide_eq_true_eq]
      omega
    have hbj : b.testBit j = false :=
      Nat.testBit_eq_false_of_lt
        (lt_of_lt_of_le hb (Nat.pow_le_pow_right (by decide) hj))
    rw [h1, hbj, Bool.true_and, Bool.or_false,
      Nat.testBit_to_div_mod, Nat.testBit_to_div_mod]
    have hdiv : (a * 2 ^ k + b) / 2 ^ j = a / 2 ^ (j - k) := by
      have hpow : (2 : Nat) ^ j = 2 ^ k * 2 ^ (j - k) := by
        rw [← pow_add]
        congr 1
        omega
      rw [hpow, ← Nat.div_div_eq_div_mul]
      congr 1
      rw [Nat.add_comm, Nat.mul_comm,
        Nat.add_mul_div_left b a
          (show 0 < 2 ^ k from Nat.pos_pow_of_pos k (by decide)),
        Nat.div_eq_of_lt hb]
      omega
    rw [hdiv]

/-- Reassembling the four little-endian bytes of a 32-bit value with
the shifts and ORs of readU32 recovers the value. -/
theorem u32_bytes_roundtrip (n : Nat) (hn : n < 4294967296) :
    n % 256 ||| ((n / 256 % 256) <<< 8) ||| ((n / 65536 % 256) <<< 16) |||
      ((n / 16777216 % 256) <<< 24) = n := by
  have e8 : (2 : Nat) ^ 8 = 256 := by norm_num
  have e16 : (2 : Nat) ^ 16 = 65536 := by norm_num
  have e24 : (2 : Nat) ^ 24 = 16777216 := by norm_num
  have hb0 : n % 256 < 2 ^ 8 := by
    rw [e8]
    omega
  have h1 : n % 256 ||| ((n / 256 % 256) <<< 8) =
      n / 256 % 256 * 256 + n % 256 := by
    rw [Nat.lor_comm, shiftLeft_lor_eq_add _ _ 8 hb0, e8]
  have hb1 : n / 256 % 256 * 256 + n % 256 < 2 ^ 16 := by
    rw [e16]
    omega
  have h2 : n / 256 % 256 * 256 + n % 256 ||| ((n / 65536 % 256) <<< 16) =
      n / 65536 % 256 * 65536 + (n / 256 % 256 * 256 + n % 256) := by
    rw [Nat.lor_comm, shiftLeft_lor_eq_add _ _ 16 hb1, e16]
  have hb2 : n / 65536 % 256 * 65536 + (n / 256 % 256 * 256 + n % 256) <
      2 ^ 24 := by
    rw [e24]
    omega
  have h3 : n / 65536 % 256 * 65536 + (n / 256 % 256 * 256 + n % 256) |||
      ((n / 16777216 % 256) <<< 24) =
      n / 16777216 % 256 * 16777216 +
        (n / 65536 % 256 * 65536 + (n / 256 % 256 * 256 + n % 256)) := by
    rw [Nat.lor_comm, shiftLeft_lor_eq_add _ _ 24 hb2, e24]
  rw [h1, h2, h3]
  omega

/-! ### Ring buffer invariant lemmas -/

/-- getNextSample preserves the ring buffer invariant. -/
theorem ringInv_getNextSample (s : StreamingSample) (h : RingInv s) :
    RingInv (getNextSample s).2 := by
  obtain ⟨h0, h1, h2, h3⟩ := h
  have hmod : (s.bufferHead + 1) % s.bufferSize < s.bufferSize :=
    Nat.mod_lt _ h0
  have hcnt : s.samplesInBuffer - 1 ≤ s.bufferSize := by omega
  unfold getNextSample
  split
  · exact ⟨h0, h1, h2, h3⟩
  · dsimp only
    split
    · exact ⟨h0, hcnt, hmod, h3⟩
    · exact ⟨h0, hcnt, hmod, h3⟩

/-- refillLoop preserves the ring buffer invariant, for any fuel. -/
theorem ringInv_refillLoop (fuel : Nat) (s : StreamingSample)
    (h : RingInv s) : RingInv (refillLoop fuel s) := by
  induction fuel generalizing s with
  | zero => exact h
  | succ fuel ih =>
    obtain ⟨h0, h1, h2, h3⟩ := h
    have hmod : (s.bufferTail + 1) % s.bufferSize < s.bufferSize :=
      Nat.mod_lt _ h0
    unfold refillLoop
    split
    · next hguard =>
      have hcnt : s.samplesInBuffer < s.bufferSize := by
        simp only [Bool.and_eq_true, decide_eq_true_eq] at hguard
        exact hguard.1
      have hcnt1 : s.samplesInBuffer + 1 ≤ s.bufferSize := by omega
      split
      · exact ih _ ⟨h0, hcnt1, h2, hmod⟩
      · exact ih _ ⟨h0, h1, h2, h3⟩
    · exact ⟨h0, h1, h2, h3⟩

/-- refillStreamBuffer preserves the ring buffer invariant. -/
theorem ringInv_refillStreamBuffer (s : StreamingSample) (h : RingInv s) :
    RingInv (refillStreamBuffer s) := by
  unfold refillStreamBuffer
  split
  · exact h
  · exact ringInv_refillLoop _ _ h

/-- triggerSample preserves the ring buffer invariant. -/
theorem ringInv_triggerSample (openOk : Bool) (flashBytes : List Nat)
    (s : StreamingSample) (h : RingInv s) :
    RingInv (triggerSample openOk flashBytes s) := by
  obtain ⟨h0, h1, h2, h3⟩ := h
  have hz : (0 : Nat) ≤ s.bufferSize := Nat.zero_le _
  unfold triggerSample
  split
  · split
    · exact ringInv_refillStreamBuffer _ ⟨h0, hz, h0, h3⟩
    · exact ⟨h0, hz, h0, h3⟩
  · exact ⟨h0, h1, h2, h3⟩

/-- loadSampleToFlash preserves the ring buffer invariant (it does not
touch the ring buffer at all). -/
theorem ringInv_loadSampleToFlash (copyOk infoOk : Bool) (dataSize : Nat)
    (s : StreamingSample) (h : RingInv s) :
    RingInv (loadSampleToFlash copyOk infoOk dataSize s) := by
  obtain ⟨h0, h1, h2, h3⟩ := h
  unfold loadSampleToFlash
  split
  · split
    · exact ⟨h0, h1, h2, h3⟩
    · exact ⟨h0, h1, h2, h3⟩
  · exact ⟨h0, h1, h2, h3⟩

/-- Every operation preserves the ring buffer invariant. -/
theorem ringInv_applyOp (s : StreamingSample) (op : Op) (h : RingInv s) :
    RingInv (applyOp s op) := by
  cases op with
  | load copyOk infoOk dataSize =>
    exact ringInv_loadSampleToFlash copyOk infoOk dataSize s h
  | trigger openOk flashBytes =>
    exact ringInv_triggerSample openOk flashBytes s h
  | tick => exact ringInv_getNextSample s h
  | refill => exact ringInv_refillStreamBuffer s h

/-- The invariant is preserved along any operation sequence. -/
theorem ringInv_foldl (ops : List Op) (s : StreamingSample)
    (h : RingInv s) : RingInv (ops.foldl applyOp s) := by
  induction ops generalizing s with
  | nil => exact h
  | cons op rest ih => exact ih _ (ringInv_applyOp s op h)

/-- The initialized voice satisfies the ring buffer invariant. -/
theorem ringInv_initStream : RingInv initStream :=
  ⟨by decide, by decide, by decide, by decide⟩

/-! ### Mixer lemmas -/

/-- The mixer accumulator equals the sum of the per-voice
contributions. -/
theorem mixVoices_fst (vs : List StreamingSample) :
    (mixVoices vs).1 = (vs.map mixContribution).sum := by
  induction vs with
  | nil => rfl
  | cons v rest ih =>
    by_cases h : (v.playing && v.loaded) = true
    · simp [mixVoices, mixContribution, h, ih]
    · simp [mixVoices, mixContribution, h, ih]

/-- The clamp never goes below -32767. -/
theorem neg_le_clamp16 (x : Int) : -32767 ≤ clamp16 x :=
  le_max_left _ _

/-- The clamp never exceeds 32767. -/
theorem clamp16_le (x : Int) : clamp16 x ≤ 32767 :=
  max_le (by norm_num) (min_le_left _ _)

/-! ### copyWAVToFlash helper lemmas -/

/-- The boolean result of copyWAVToFlash depends only on the three I/O
conditions: readable source, complete 44-byte header, writable
destination.  No header content is ever checked. -/
theorem copyWAVToFlash_fst (sdOpenOk flashOpenOk : Bool) (src : List Nat) :
    (copyWAVToFlash sdOpenOk flashOpenOk src).1 =
      (sdOpenOk && decide (44 ≤ src.length) && flashOpenOk) := by
  unfold copyWAVToFlash
  cases sdOpenOk with
  | false => simp
  | true =>
    by_cases hlen : src.length < 44
    · have : decide (44 ≤ src.length) = false := by
        simp only [decide_eq_false_iff_not]
        omega
      simp [hlen, this]
    · have : decide (44 ≤ src.length) = true := by
        simp only [decide_eq_true_eq]
        omega
      cases flashOpenOk with
      | false => simp [hlen, this]
      | true => simp [hlen, this]

/-- Any supported format consumes at least two source bytes per frame. -/
theorem two_le_frameBytes (bps ch : Nat) (hbps : bps = 16 ∨ bps = 24)
    (hch : ch = 1 ∨ ch = 2) : 2 ≤ frameBytes bps ch := by
  rcases hbps with h | h <;> rcases hch with h2 | h2 <;>
    subst h <;> subst h2 <;> decide

/-- For a supported format, a full-frame read advances the source
position by exactly the frame size. -/
theorem readSampleAt_snd (bps ch : Nat) (src : List Nat) (pos : Nat)
    (hbps : bps = 16 ∨ bps = 24) (hch : ch = 1 ∨ ch = 2)
    (hpos : pos + frameBytes bps ch ≤ src.length) :
    (readSampleAt bps ch src pos).2 = pos + frameBytes bps ch := by
  rcases hbps with h | h <;> rcases hch with h2 | h2 <;>
    subst h <;> subst h2 <;>
    simp only [readSampleAt, frameBytes] at hpos ⊢ <;>
    norm_num at hpos ⊢ <;>
    rw [if_pos hpos]

/-- For a supported format with enough source bytes, the copy loop runs
all its iterations and writes exactly two bytes per iteration. -/
theorem convertLoop_length (bps ch : Nat) (hbps : bps = 16 ∨ bps = 24)
    (hch : ch = 1 ∨ ch = 2) (src : List Nat) :
    ∀ (fuel pos : Nat) (out : List Nat),
      pos + frameBytes bps ch * fuel ≤ src.length →
      (convertLoop bps ch src fuel pos out).length = out.length + 2 * fuel := by
  intro fuel
  induction fuel with
  | zero =>
    intro pos out h
    simp [convertLoop]
  | succ fuel ih =>
    intro pos out h
    have hframe := two_le_frameBytes bps ch hbps hch
    have hmul : frameBytes bps ch * (fuel + 1) =
        frameBytes bps ch + frameBytes bps ch * fuel := by ring
    have hpos1 : pos + frameBytes bps ch ≤ src.length := by omega
    have hposlt : pos < src.length := by omega
    unfold convertLoop
    rw [if_pos hposlt]
    dsimp only
    rw [readSampleAt_snd bps ch src pos hbps hch hpos1,
      ih (pos + frameBytes bps ch) _ (by omega)]
    simp [sampleToBytes]
    omega

/-- The rewritten header is exactly 44 bytes long. -/
theorem patchHeader_length (src : List Nat) (n : Nat)
    (h44 : 44 ≤ src.length) : (patchHeader src n).length = 44 := by
  simp [patchHeader, setU32, List.length_set, List.length_take]
  omega

/-- Reading the data-size field back from the rewritten header yields
the recomputed data size. -/
theorem readU32_patchHeader (src : List Nat) (n : Nat)
    (h44 : 44 ≤ src.length) (hn : n < 4294967296) :
    readU32 (patchHeader src n) 40 = n := by
  have hmin : min 44 src.length = 44 := Nat.min_eq_left h44
  simp only [readU32, patchHeader, setU32, List.getD_eq_getElem?_getD,
    List.getElem?_set, List.length_set, List.length_take, hmin]
  norm_num
  exact u32_bytes_roundtrip n hn

/-- Reading a 32-bit field that lies inside the first list of an
append reads it from the first list. -/
theorem readU32_append (a b : List Nat) (off : Nat)
    (h : off + 4 ≤ a.length) : readU32 (a ++ b) off = readU32 a off := by
  simp only [readU32, List.getD_eq_getElem?_getD, List.getElem?_append]
  rw [if_pos (by omega), if_pos (by omega), if_pos (by omega),
    if_pos (by omega)]

/-- Shape of a successful oversized conversion: the result is success,
the output is the 44-byte rewritten header plus 2 bytes per converted
sample, the converted sample count is the capped data size divided by
the source frame size, and the header data-size field matches the
written data.  (Shared backbone for the truncation theorems.) -/
theorem copyWAVToFlash_shape (src : List Nat)
    (hbps : readU16 src 34 = 16 ∨ readU16 src 34 = 24)
    (hch : readU16 src 22 = 1 ∨ readU16 src 22 = 2)
    (hbig : MAX_FLASH_SAMPLE_SIZE < readU32 src 40)
    (hlen : 44 + frameBytes (readU16 src 34) (readU16 src 22) *
      (MAX_FLASH_SAMPLE_SIZE / (readU16 src 34 / 8) / readU16 src 22) ≤
        src.length) :
    (copyWAVToFlash true true src).1 = true ∧
      (copyWAVToFlash true true src).2.length =
        44 + 2 * (MAX_FLASH_SAMPLE_SIZE / (readU16 src 34 / 8) /
          readU16 src 22) ∧
      readU32 (copyWAVToFlash true true src).2 40 =
        MAX_FLASH_SAMPLE_SIZE / (readU16 src 34 / 8) / readU16 src 22 * 2 := by
  have hframe := two_le_frameBytes _ _ hbps hch
  have h44 : 44 ≤ src.length := by omega
  have hnotlt : ¬src.length < 44 := by omega
  have hcap : MAX_FLASH_SAMPLE_SIZE / (readU16 src 34 / 8) / readU16 src 22 ≤
      MAX_FLASH_SAMPLE_SIZE :=
    le_trans (Nat.div_le_self _ _) (Nat.div_le_self _ _)
  have hnds : MAX_FLASH_SAMPLE_SIZE / (readU16 src 34 / 8) / readU16 src 22 * 2 <
      4294967296 := by
    have : MAX_FLASH_SAMPLE_SIZE = 524288 := rfl
    omega
  unfold copyWAVToFlash
  rw [if_neg (by simp), if_neg (by simpa using hnotlt), if_neg (by simp)]
  dsimp only
  rw [if_pos (by simpa using hbig)]
  refine ⟨rfl, ?_, ?_⟩
  · rw [List.length_append, patchHeader_length src _ h44,
      convertLoop_length _ _ hbps hch src _ 44 [] (by simpa using hlen)]
    simp
  · rw [readU32_append _ _ 40 (by rw [patchHeader_length src _ h44]),
      readU32_patchHeader src _ h44 hnds]

/-- The source's int32 sign-extension trick (OR with 0xFF000000 when
bit 23 is set) agrees with mathematical sign extension of a 24-bit
two's-complement value. -/
theorem signExtend24_eq_sext24Spec (v : Nat) (hv : v < 16777216) :
    signExtend24 v = sext24Spec v := by
  unfold signExtend24 sext24Spec
  by_cases hlt : v < 8388608
  · have hb : v.testBit 23 = false := by
      apply Nat.testBit_eq_false_of_lt
      norm_num
      omega
    have hand : v &&& 8388608 = 0 := by
      have h2 := Nat.and_two_pow v 23
      rw [hb] at h2
      norm_num at h2
      exact h2
    simp [hand, hlt]
  · have hd : v / 8388608 = 1 := by omega
    have hb : v.testBit 23 = true := by
      rw [Nat.testBit_to_div_mod]
      norm_num [hd]
    have hand : v &&& 8388608 = 8388608 := by
      have h2 := Nat.and_two_pow v 23
      rw [hb] at h2
      norm_num at h2
      exact h2
    have hor : v ||| 4278190080 = v + 4278190080 := by
      have h3 := shiftLeft_lor_eq_add 255 v 24 (by norm_num; omega)
      rw [show (255 : Nat) <<< 24 = 4278190080 from by decide,
        show (255 : Nat) * 2 ^ 24 = 4278190080 from by norm_num] at h3
      rw [Nat.lor_comm, h3]
      omega
    rw [if_pos (by simp [hand]), if_neg hlt, hor]
    unfold toInt32
    have hlt32 : v + 4278190080 < 4294967296 := by omega
    rw [Nat.mod_eq_of_lt hlt32, if_neg (by omega)]
    push_cast
    omega

/-! ### Claim theorems -/

/-- C1: refuted — code bug in triggerSample.  The claim says triggering
a voice with a bound asset (from Loaded or Playing) restarts emission at
the asset's sample 0.  triggerSample resets bufferHead to 0 but leaves
bufferTail where the previous playback left it, so the initial fill
lands at stale positions while reading restarts at index 0.  Failing
input: play 2-sample asset A (samples 1, 2) to completion, then load and
trigger 3-sample asset B (samples 10, 11, 12) with every file operation
succeeding; the first emitted sample is 1 — asset A's stale sample at
buffer index 0 — not asset B's sample 0, which is 10. -/
theorem triggerSample_retrigger_emits_stale_sample :
    (getNextSample c1State).1 = 1 ∧ toInt16 (readU16 fileB 44) = 10 ∧
      ((1 : Int) ≠ 10) := by
  refine ⟨by decide, by decide, by decide⟩

/-- C2: confirmed.  For every sequence of load, trigger, tickOutput and
refill operations after buffer initialization, the ring buffer satisfies
0 ≤ samplesInBuffer ≤ bufferSize and bufferHead, bufferTail ∈
[0, bufferSize). -/
theorem ringBuffer_invariant_reachable (ops : List Op) :
    RingInv (runOps ops) :=
  ringInv_foldl ops initStream ringInv_initStream

/-- C3 counterexample: the claim fails for totalSamples = 0.  A voice
loaded from an asset whose header declares 0 data bytes and then
successfully triggered is Playing with samplesPlayed = totalSamples = 0,
yet getNextSample leaves it Playing: the Playing→Loaded transition does
not occur when the cursor equals totalSamples (and never occurs at all
for this voice). -/
theorem getNextSample_zero_asset_never_completes :
    emptyAssetState.playing = true ∧ emptyAssetState.totalSamples = 0 ∧
      emptyAssetState.samplesPlayed = emptyAssetState.totalSamples ∧
      (getNextSample emptyAssetState).2.playing = true := by
  refine ⟨by decide, by decide, by decide, by decide⟩

/-- C3 (amended): for a Playing voice, a getNextSample call that pops a
sample (buffer non-empty, cursor still below totalSamples) transitions
the voice out of Playing exactly when the incremented cursor equals
totalSamples, and the storage handle is closed at that point; with an
empty buffer the call changes nothing — in particular a Playing voice
with totalSamples = 0 never transitions. -/
theorem getNextSample_completion (s : StreamingSample)
    (hp : s.playing = true) :
    (0 < s.samplesInBuffer → s.samplesPlayed < s.totalSamples →
      ((((getNextSample s).2.playing = false) ↔
        s.samplesPlayed + 1 = s.totalSamples) ∧
      ((getNextSample s).2.playing = false →
        (getNextSample s).2.fileOpen = false))) ∧
    (s.samplesInBuffer = 0 → (getNextSample s).2 = s) := by
  constructor
  · intro hcnt hlt
    have hne : (s.samplesInBuffer == 0) = false := by
      simp only [beq_eq_false_iff_ne, ne_eq]
      omega
    unfold getNextSample
    rw [if_neg (by simp [hp, hne])]
    dsimp only
    split
    · next hge =>
      constructor
      · constructor
        · intro _
          omega
        · intro _
          rfl
      · intro _
        rfl
    · next hge =>
      constructor
      · constructor
        · intro hfalse
          rw [hp] at hfalse
          simp at hfalse
        · intro heq
          omega
      · intro hfalse
        rw [hp] at hfalse
        simp at hfalse
  · intro h0
    unfold getNextSample
    rw [if_pos (by simp [h0])]

/-- C3 witness: the amended completion law instantiated at a concrete
playing voice (one buffered sample, cursor 0 of 3): ticking does not
leave Playing because the new cursor 1 is below totalSamples 3. -/
theorem getNextSample_completion_witness :
    ((getNextSample playVoice).2.playing = false) ↔
      playVoice.samplesPlayed + 1 = playVoice.totalSamples :=
  ((getNextSample_completion playVoice (by decide)).1 (by decide)
    (by decide)).1

/-- C4: refuted — code bug in triggerSample.  The claim says a Playing
voice always holds an open storage handle, including after a failed
flash-file open during trigger.  triggerSample sets playing := true
before attempting the open and does not roll it back on failure, so
after load succeeds and the open fails the voice is reachable with
playing = true, loaded = true and no open handle (it then emits silence
forever). -/
theorem trigger_failed_open_playing_without_handle :
    failedOpenState.playing = true ∧ failedOpenState.loaded = true ∧
      failedOpenState.fileOpen = false := by
  refine ⟨by decide, by decide, by decide⟩

/-- C5: confirmed.  Each mixer tick sums the voices' samples in a wide
accumulator (exact in Int since four int16 values cannot overflow
int32), clamps to [-32767, 32767], and emits the identical clamped
value on both channels; three voices each emitting +20000 (sum 60000)
produce 32767. -/
theorem loop_mixer_clamps_and_duplicates :
    (∀ vs : List StreamingSample,
      (loopTick vs).1.1 = (loopTick vs).1.2 ∧
      -32767 ≤ (loopTick vs).1.1 ∧ (loopTick vs).1.1 ≤ 32767 ∧
      (loopTick vs).1.1 = clamp16 ((vs.map mixContribution).sum)) ∧
    (loopTick loudVoices).1.1 = 32767 ∧
    (loudVoices.map mixContribution).sum = 60000 := by
  refine ⟨fun vs => ⟨rfl, neg_le_clamp16 _, clamp16_le _, ?_⟩,
    by decide, by decide⟩
  show clamp16 (mixVoices vs).1 = clamp16 ((vs.map mixContribution).sum)
  rw [mixVoices_fst]

/-- C6: confirmed.  If a voice is Playing with an empty ring buffer,
getNextSample returns 0 and the entire voice state — cursor, buffer
indices, handle, flags — is returned unchanged (no error state). -/
theorem getNextSample_underrun (s : StreamingSample)
    (hp : s.playing = true) (h0 : s.samplesInBuffer = 0) :
    getNextSample s = (0, s) := by
  unfold getNextSample
  rw [if_pos (by simp [h0])]

/-- C6 witness: the underrun law at a concrete playing, loaded voice
whose buffer has drained to 0. -/
theorem getNextSample_underrun_witness :
    underrunVoice.playing = true ∧ underrunVoice.samplesInBuffer = 0 ∧
      getNextSample underrunVoice = (0, underrunVoice) :=
  ⟨by decide, by decide, getNextSample_underrun underrunVoice rfl rfl⟩

/-- C7 counterexample: a source declaring 32 bits per sample — outside
{16, 24} — is converted "successfully": copyWAVToFlash reports true
(writing silence), not an UnsupportedFormat failure, refuting the
claim that such sources fail. -/
theorem copyWAVToFlash_unsupported_bits_succeeds :
    readU16 src32 34 = 32 ∧ (copyWAVToFlash true true src32).1 = true := by
  refine ⟨by decide, by decide⟩

/-- C7 (amended): copyWAVToFlash performs no format validation at all:
for every declared bit depth and channel count (with readable source,
complete header and writable destination) it reports success; bit
depths outside {16, 24} produce all-zero samples and channel counts
other than 1 all take the stereo path. -/
theorem copyWAVToFlash_no_format_validation (bitsPerSample numChannels : Nat) :
    (copyWAVToFlash true true (mkFormatSrc bitsPerSample numChannels)).1 =
      true := by
  rw [copyWAVToFlash_fst]
  have hlen : (mkFormatSrc bitsPerSample numChannels).length = 48 := by
    simp [mkFormatSrc, List.length_append, List.length_set,
      List.length_replicate]
  simp [hlen]

/-- C8 counterexample: a source whose signature bytes are all zero (not
RIFF/WAVE) but whose 44-byte header is present converts successfully:
copyWAVToFlash validates no signature field, refuting the claim that a
malformed signature fails with IOError. -/
theorem copyWAVToFlash_ignores_signature :
    badSigSrc.take 4 = [0, 0, 0, 0] ∧
      (copyWAVToFlash true true badSigSrc).1 = true := by
  refine ⟨by decide, by decide⟩

/-- C8 (amended): copyWAVToFlash fails exactly when the source is
unreadable, the header is shorter than 44 bytes, or the destination is
unwritable; the header signature is never validated — any 44 bytes are
accepted. -/
theorem copyWAVToFlash_result_characterization (sdOpenOk flashOpenOk : Bool)
    (src : List Nat) :
    (copyWAVToFlash sdOpenOk flashOpenOk src).1 =
      (sdOpenOk && decide (44 ≤ src.length) && flashOpenOk) :=
  copyWAVToFlash_fst sdOpenOk flashOpenOk src

/-- C9: confirmed.  The source's 24-bit to 16-bit conversion equals the
spec rule (sign-extend the 24-bit two's-complement value, then
arithmetic-shift right by 8, truncating) for every 24-bit input; in
particular input 0x7FFFFF yields 0x7FFF (32767) and input 0x800000
yields the int16 bit pattern 0x8000 (value -32768). -/
theorem convert24To16_matches_spec :
    (∀ v : Nat, v < 16777216 → convert24To16 v = convert24To16Spec v) ∧
      convert24To16 8388607 = 32767 ∧ convert24To16 8388608 = -32768 ∧
      toUInt16bits (convert24To16 8388608) = 32768 := by
  refine ⟨fun v hv => ?_, by decide, by decide, by decide⟩
  unfold convert24To16 convert24To16Spec
  rw [signExtend24_eq_sext24Spec v hv]

/-- C9 witness: the conversion equivalence applied at the concrete
24-bit input 0x800000. -/
theorem convert24To16_matches_spec_witness :
    (8388608 : Nat) < 16777216 ∧
      convert24To16 8388608 = convert24To16Spec 8388608 :=
  ⟨by decide, convert24To16_matches_spec.1 8388608 (by decide)⟩

/-- C10 counterexample: an oversized 16-bit stereo source (declared
data size 1 MB, cap 512 KB) produces a data portion of 262144 bytes —
the capped source size divided by the 4-byte input frame, times the
2-byte output sample — not a data portion of exactly the 524288-byte
cap as the claim states. -/
theorem copyWAVToFlash_stereo_data_not_cap_size :
    (copyWAVToFlash true true stereoBigSrc).1 = true ∧
      (copyWAVToFlash true true stereoBigSrc).2.length = 44 + 262144 ∧
      (262144 : Nat) ≠ MAX_FLASH_SAMPLE_SIZE := by
  have h34 : readU16 stereoBigSrc 34 = 16 := by decide
  have h22 : readU16 stereoBigSrc 22 = 2 := by decide
  have hL : stereoBigSrc.length = 524332 := by
    unfold stereoBigSrc
    rw [List.length_append, List.length_set, List.length_set,
      List.length_set, List.length_replicate, List.length_replicate]
  have hshape := copyWAVToFlash_shape stereoBigSrc (Or.inl h34) (Or.inr h22)
    (by rw [show readU32 stereoBigSrc 40 = 1048576 from by decide]; decide)
    (by rw [h34, h22, hL]; decide)
  refine ⟨hshape.1, ?_, by decide⟩
  rw [hshape.2.1, h34, h22]
  decide

/-- C10 (amended): for a supported-format source whose declared data
size exceeds MAX_FLASH_SAMPLE_SIZE (and which has enough source bytes),
copyWAVToFlash caps the consumed source data at the cap, converts
cap / frameBytes samples, writes a data portion of twice that many
bytes — equal to the cap only for 16-bit mono input — recomputes the
header data-size field to match the written data, and reports plain
success (the truncation is only logged; no distinct Truncated result
exists). -/
theorem copyWAVToFlash_truncates_to_cap (src : List Nat)
    (hbps : readU16 src 34 = 16 ∨ readU16 src 34 = 24)
    (hch : readU16 src 22 = 1 ∨ readU16 src 22 = 2)
    (hbig : MAX_FLASH_SAMPLE_SIZE < readU32 src 40)
    (hlen : 44 + frameBytes (readU16 src 34) (readU16 src 22) *
      (MAX_FLASH_SAMPLE_SIZE / (readU16 src 34 / 8) / readU16 src 22) ≤
        src.length) :
    (copyWAVToFlash true true src).1 = true ∧
      (copyWAVToFlash true true src).2.length =
        44 + 2 * (MAX_FLASH_SAMPLE_SIZE / (readU16 src 34 / 8) /
          readU16 src 22) ∧
      readU32 (copyWAVToFlash true true src).2 40 =
        MAX_FLASH_SAMPLE_SIZE / (readU16 src 34 / 8) / readU16 src 22 * 2 :=
  copyWAVToFlash_shape src hbps hch hbig hlen

/-- C10 witness: the truncation law at a concrete oversized 24-bit mono
source (declared 1 MB of data, 524286 data bytes present). -/
theorem copyWAVToFlash_truncates_to_cap_witness :
    (copyWAVToFlash true true monoBigSrc).1 = true ∧
      (copyWAVToFlash true true monoBigSrc).2.length =
        44 + 2 * (MAX_FLASH_SAMPLE_SIZE / (readU16 monoBigSrc 34 / 8) /
          readU16 monoBigSrc 22) ∧
      readU32 (copyWAVToFlash true true monoBigSrc).2 40 =
        MAX_FLASH_SAMPLE_SIZE / (readU16 monoBigSrc 34 / 8) /
          readU16 monoBigSrc 22 * 2 :=
  copyWAVToFlash_truncates_to_cap monoBigSrc
    (Or.inr (by decide)) (Or.inl (by decide))
    (by rw [show readU32 monoBigSrc 40 = 1048576 from by decide]; decide)
    (by
      have hL : monoBigSrc.length = 524330 := by
        unfold monoBigSrc
        rw [List.length_append, List.length_set, List.length_set,
          List.length_set, List.length_replicate, List.length_replicate]
      rw [show readU16 monoBigSrc 34 = 24 from by decide,
        show readU16 monoBigSrc 22 = 1 from by decide, hL]
      decide)

end DrumMachine
